import Mathlib

/-!
Verification of the agent-door gateway core against its specification.

The definitions below are shallow embeddings of the TypeScript/JavaScript
sources of the repository:

* `checkRateLimit`   — `RateLimiter.checkRateLimit` (vendor SDK rate-limiter).
* `createSession`, `validateSession`, `endSession`
                     — `SessionManager` (vendor SDK session store).
* `uuidV4`           — the `uuid` package v4 generator used for session tokens.
* `upstreamErrorMessage`, `capabilityCatch`
                     — the capability closure built by `AgentDoor.fromOpenAPI`
                       and the catch-all in `AgentDoor.buildRoutes`.
* `extractToken`, `deleteSessionRoute`
                     — the `DELETE <base>/agents/api/session` route.

Machine integers are modelled as `Int`/`Nat` (JavaScript numbers stay far
below 2^53 in all code paths treated here, so no overflow modelling is
needed).  JavaScript `Map` objects are modelled as association lists with
JS `Map` semantics (`set` replaces in place or appends, `delete` removes
the unique entry for a key).
-/

/-! ## Rate limiter (vendor SDK `rate-limiter.js`) -/

/-- Result record of `RateLimiter.checkRateLimit`. -/
structure RateResult where
  allowed : Bool
  remaining : Nat
  resetAt : Int
deriving Repr, DecidableEq

/-- Sliding window width, `windowMs = 60_000` in the source. -/
def windowMs : Int := 60000

/-- `RateLimiter.checkRateLimit(key, limit)` for a single key.  The per-key
state is the ordered timestamp list `ts`; the function filters out
timestamps `t ≤ now − windowMs`, rejects when the kept count reaches
`lim` (reporting `resetAt` from the oldest kept timestamp), and otherwise
appends `now`.  (`timestamps[0]` on an empty list is modelled by `headD 0`;
the source never hits that case for `limit ≥ 1`.) -/
def checkRateLimit (now : Int) (lim : Nat) (ts : List Int) : RateResult × List Int :=
  let windowStart := now - windowMs
  let kept := ts.filter (fun t => windowStart < t)
  if lim ≤ kept.length then
    ({ allowed := false, remaining := 0, resetAt := kept.headD 0 + windowMs }, kept)
  else
    ({ allowed := true, remaining := lim - (kept.length + 1), resetAt := now + windowMs },
      kept ++ [now])

/-- Run a burst of calls to `checkRateLimit` at the given call times,
threading the per-key state; returns the list of results and the final
state. -/
def runBurst (lim : Nat) (times : List Int) (ts : List Int) : List RateResult × List Int :=
  match times with
  | [] => ([], ts)
  | t :: rest =>
    let step := checkRateLimit t lim ts
    let tail := runBurst lim rest step.2
    (step.1 :: tail.1, tail.2)

/-! ## Session store (vendor SDK `session.js`, claim source `part_017`) -/

/-- Session record stored by `SessionManager`. -/
structure SessionData where
  sessionToken : String
  siteId : String
  capabilities : List String
  cartItems : List String
  expiresAt : Int
  createdAt : Int
deriving Repr, DecidableEq

/-- JS `Map.get`. -/
def mapGet (k : String) : List (String × SessionData) → Option SessionData
  | [] => none
  | (k0, v0) :: rest => if k0 = k then some v0 else mapGet k rest

/-- JS `Map.set`: replace the entry for `k` in place, else append. -/
def mapSet (k : String) (v : SessionData) : List (String × SessionData) → List (String × SessionData)
  | [] => [(k, v)]
  | (k0, v0) :: rest => if k0 = k then (k0, v) :: rest else (k0, v0) :: mapSet k v rest

/-- JS `Map.delete`: drop the (unique) entry for `k`. -/
def mapDelete (k : String) : List (String × SessionData) → List (String × SessionData)
  | [] => []
  | (k0, v0) :: rest => if k0 = k then rest else (k0, v0) :: mapDelete k rest

/-- Two-character lowercase hex rendering of one byte, as in the `uuid`
package byte-to-hex table. -/
def byteToHex (b : Nat) : List Char :=
  [Nat.digitChar (b / 16 % 16), Nat.digitChar (b % 16)]

/-- The `uuid` v4 generator masks byte 6 to `0100xxxx` (version 4) and
byte 8 to `10xxxxxx` (RFC 4122 variant); the other 14 bytes are the raw
random bytes. -/
def uuidBytes (r : Fin 16 → Fin 256) : Fin 16 → Nat := fun i =>
  if i.val = 6 then ((r i).val &&& 0x0f) ||| 0x40
  else if i.val = 8 then ((r i).val &&& 0x3f) ||| 0x80
  else (r i).val

/-- The `uuid` package stringification: hex bytes in groups 8-4-4-4-12
joined by hyphens. -/
def uuidStringify (b : Fin 16 → Nat) : List Char :=
  byteToHex (b 0) ++ byteToHex (b 1) ++ byteToHex (b 2) ++ byteToHex (b 3) ++ ['-'] ++
  byteToHex (b 4) ++ byteToHex (b 5) ++ ['-'] ++
  byteToHex (b 6) ++ byteToHex (b 7) ++ ['-'] ++
  byteToHex (b 8) ++ byteToHex (b 9) ++ ['-'] ++
  byteToHex (b 10) ++ byteToHex (b 11) ++ byteToHex (b 12) ++ byteToHex (b 13) ++
  byteToHex (b 14) ++ byteToHex (b 15)

/-- `uuid.v4()`, parametrised by the 16 random bytes drawn from the
cryptographic source. -/
def uuidV4 (r : Fin 16 → Fin 256) : String :=
  ⟨uuidStringify (uuidBytes r)⟩

/-- Result triple of `SessionManager.createSession`. -/
structure CreateSessionResult where
  sessionToken : String
  expiresAt : Int
  capabilities : List String
deriving Repr, DecidableEq

/-- `SessionManager.createSession(siteId)`: token is `uuid.v4()` of the
random bytes `r`, `expiresAt = now + ttl*1000` (`ttl` is in seconds). -/
def createSession (ttlSeconds : Int) (capabilityNames : List String) (siteId : String)
    (r : Fin 16 → Fin 256) (now : Int) (sessions : List (String × SessionData)) :
    CreateSessionResult × List (String × SessionData) :=
  let sessionToken := uuidV4 r
  let expiresAt := now + ttlSeconds * 1000
  let session : SessionData :=
    { sessionToken := sessionToken, siteId := siteId, capabilities := capabilityNames,
      cartItems := [], expiresAt := expiresAt, createdAt := now }
  ({ sessionToken := sessionToken, expiresAt := expiresAt, capabilities := session.capabilities },
    mapSet sessionToken session sessions)

/-- `SessionManager.validateSession(token)`: `null` when unknown; when
`Date.now() >= expiresAt` the entry is deleted (lazy eviction) and `null`
returned; otherwise the session is returned and the store untouched. -/
def validateSession (now : Int) (token : String) (sessions : List (String × SessionData)) :
    Option SessionData × List (String × SessionData) :=
  match mapGet token sessions with
  | none => (none, sessions)
  | some s =>
    if s.expiresAt ≤ now then (none, mapDelete token sessions)
    else (some s, sessions)

/-- `SessionManager.endSession(token)`. -/
def endSession (token : String) (sessions : List (String × SessionData)) :
    List (String × SessionData) :=
  mapDelete token sessions

/-! ## Capability error path (vendor SDK `server.js`) -/

/-- Message of the error thrown by the capability closure of
`AgentDoor.fromOpenAPI` on a non-2xx upstream response (line 100 of the
vendored `server.js`): the upstream status code followed by the upstream
response body text. -/
def upstreamErrorMessage (status : Nat) (text : String) : String :=
  "Upstream " ++ toString status ++ ": " ++ text

/-- Response record produced by the tenant router routes. -/
structure DoorResponse where
  status : Nat
  ok : Bool
  error : Option String
  ended : Bool
deriving Repr, DecidableEq

/-- Catch-all of the capability route in `AgentDoor.buildRoutes`
(lines 280-282): the thrown message is returned verbatim to the caller
as `{ok: false, error: err.message}` with status 400. -/
def capabilityCatch (msg : String) : DoorResponse :=
  { status := 400, ok := false, error := some msg, ended := false }

/-! ## DELETE session route (vendor SDK `server.js`, lines 221-235) -/

/-- Headers of an agent request that matter for token extraction. -/
structure AgentReq where
  authorization : Option String
  xSessionToken : Option String

/-- JS `String.prototype.startsWith`, modelled on the character list. -/
def strStartsWith (s pre : String) : Bool :=
  pre.toList.isPrefixOf s.toList

/-- JS `String.prototype.slice(n)` for a non-negative start index. -/
def strDrop (s : String) (n : Nat) : String :=
  ⟨s.toList.drop n⟩

/-- `extractToken(req)`: `Authorization: Bearer <t>` wins; otherwise the
`X-Session-Token` header; otherwise null. -/
def extractToken (req : AgentReq) : Option String :=
  match req.authorization with
  | some auth => if strStartsWith auth "Bearer " then some (strDrop auth 7) else req.xSessionToken
  | none => req.xSessionToken

/-- JS truthiness of the extracted token: `null` and the empty string are
falsy (`if (!token)`). -/
def jsFalsyStr : Option String → Bool
  | none => true
  | some s => s = ""

/-- The `DELETE <base>/agents/api/session` route handler: rate check first
(429 on failure), then 401 `Missing session token` when no token was
supplied, otherwise `endSession` and 200 `{ended: true}` even for unknown
tokens. -/
def deleteSessionRoute (rateLimit : Nat) (now : Int) (rl : List Int)
    (sessions : List (String × SessionData)) (req : AgentReq) :
    DoorResponse × List (String × SessionData) × List Int :=
  let step := checkRateLimit now rateLimit rl
  if step.1.allowed = false then
    ({ status := 429, ok := false, error := some "Rate limit exceeded", ended := false },
      sessions, step.2)
  else
    let token := extractToken req
    if jsFalsyStr token then
      ({ status := 401, ok := false, error := some "Missing session token", ended := false },
        sessions, step.2)
    else
      ({ status := 200, ok := true, error := none, ended := true },
        endSession (token.getD "") sessions, step.2)

/-! ## Association-list lemmas (JS `Map` semantics) -/

theorem mapGet_mapSet_self (k : String) (v : SessionData) (l : List (String × SessionData)) :
    mapGet k (mapSet k v l) = some v := by
  induction l with
  | nil => simp [mapGet, mapSet]
  | cons hd tl ih =>
    obtain ⟨k0, v0⟩ := hd
    by_cases h : k0 = k
    · simp [mapGet, mapSet, h]
    · simp [mapGet, mapSet, h, ih]

theorem mem_keys_mapSet (x k : String) (v : SessionData) (l : List (String × SessionData))
    (hx : x ∈ (mapSet k v l).map Prod.fst) : x = k ∨ x ∈ l.map Prod.fst := by
  induction l with
  | nil => simpa [mapSet] using hx
  | cons hd tl ih =>
    obtain ⟨k0, v0⟩ := hd
    by_cases h : k0 = k
    · subst h
      simp only [mapSet, if_pos rfl, List.map_cons] at hx
      simp only [List.map_cons]
      rcases List.mem_cons.mp hx with h1 | h1
      · exact Or.inr (List.mem_cons.mpr (Or.inl h1))
      · exact Or.inr (List.mem_cons.mpr (Or.inr h1))
    · simp only [mapSet, if_neg h, List.map_cons] at hx
      rcases List.mem_cons.mp hx with h1 | h1
      · exact Or.inr (by simp [h1])
      · rcases ih h1 with h2 | h2
        · exact Or.inl h2
        · exact Or.inr (by simp [h2])

theorem nodup_keys_mapSet (k : String) (v : SessionData) (l : List (String × SessionData))
    (h : (l.map Prod.fst).Nodup) : ((mapSet k v l).map Prod.fst).Nodup := by
  induction l with
  | nil => simp [mapSet]
  | cons hd tl ih =>
    obtain ⟨k0, v0⟩ := hd
    simp only [List.map_cons, List.nodup_cons] at h
    by_cases hk : k0 = k
    · subst hk
      simp only [mapSet, eq_self_iff_true, if_true, List.map_cons, List.nodup_cons]
      exact ⟨h.1, h.2⟩
    · simp only [mapSet, if_neg hk, List.map_cons, List.nodup_cons]
      refine ⟨fun hmem => ?_, ih h.2⟩
      rcases mem_keys_mapSet k0 k v tl hmem with h1 | h1
      · exact hk h1
      · exact h.1 h1

theorem mapGet_eq_none_of_not_mem (k : String) (l : List (String × SessionData))
    (h : k ∉ l.map Prod.fst) : mapGet k l = none := by
  induction l with
  | nil => rfl
  | cons hd tl ih =>
    obtain ⟨k0, v0⟩ := hd
    simp only [List.map_cons, List.mem_cons, not_or] at h
    have : k0 ≠ k := fun hk => h.1 hk.symm
    simp [mapGet, this, ih h.2]

theorem mapGet_mapDelete_self (k : String) (l : List (String × SessionData))
    (h : (l.map Prod.fst).Nodup) : mapGet k (mapDelete k l) = none := by
  induction l with
  | nil => rfl
  | cons hd tl ih =>
    obtain ⟨k0, v0⟩ := hd
    simp only [List.map_cons, List.nodup_cons] at h
    by_cases hk : k0 = k
    · simp only [mapDelete, if_pos hk]
      exact mapGet_eq_none_of_not_mem k tl (hk ▸ h.1)
    · simp [mapDelete, hk, mapGet, ih h.2]

/-! ## Claim theorems: capability error path and session store -/

/-- C1: the claim states that on a non-2xx upstream response the caller
sees only the upstream status code and no part of the upstream body.  The
code (vendored `server.js` lines 99-100 and 280-282) violates this: the
thrown message embeds the upstream body text verbatim and the route catch
returns that message to the caller.  At upstream status 500 with body
`secret-internal-body`, the caller-visible error is
`Upstream 500: secret-internal-body`. -/
theorem upstreamBody_leaks_to_caller :
    (capabilityCatch (upstreamErrorMessage 500 "secret-internal-body")).status = 400 ∧
    (capabilityCatch (upstreamErrorMessage 500 "secret-internal-body")).error =
      some ("Upstream 500: " ++ "secret-internal-body") := by
  constructor
  · rfl
  · rfl

/-- C2 counterexample: the token returned by `createSession` is a 36-char
hyphenated UUID v4, not a 64-char hex string; witnessed by the all-zero
random bytes. -/
theorem sessionToken_not_64_hex :
    (createSession 3600 [] "site" (fun _ => 0) 0 []).1.sessionToken =
      "00000000-0000-4000-8000-000000000000" ∧
    (createSession 3600 [] "site" (fun _ => 0) 0 []).1.sessionToken.length = 36 := by
  constructor
  · rfl
  · rfl

/-- Version nibble of a UUID v4: for any low nibble `z`, `(z ||| 0x40) / 16`
renders as the hex digit `4`. -/
theorem versionNibble : ∀ z < 16, Nat.digitChar (((z ||| 64) / 16) % 16) = '4' := by decide

/-- C2 amended: every session token returned by `createSession` is the
`uuid.v4()` rendering of the 16 random bytes: 36 characters, hyphenated
(hence not a 64-character hex string), with the version character `4` at
index 14; only 122 of its bits come from the random source. -/
theorem sessionToken_is_uuidV4 (ttlSeconds : Int) (caps : List String) (site : String)
    (r : Fin 16 → Fin 256) (now : Int) (store : List (String × SessionData)) :
    (createSession ttlSeconds caps site r now store).1.sessionToken = uuidV4 r ∧
    (createSession ttlSeconds caps site r now store).1.sessionToken.length = 36 ∧
    '-' ∈ (createSession ttlSeconds caps site r now store).1.sessionToken.toList ∧
    (createSession ttlSeconds caps site r now store).1.sessionToken.toList.getD 14 ' ' = '4' := by
  refine ⟨rfl, ?_, ?_, ?_⟩
  · simp [createSession, uuidV4, String.length, uuidStringify, byteToHex]
  · simp [createSession, uuidV4, String.toList, uuidStringify, byteToHex]
  · have h6 : uuidBytes r 6 = ((r 6).val &&& 15) ||| 64 := rfl
    have hlt : (r 6).val &&& 15 < 16 :=
      Nat.lt_succ_of_le (Nat.and_le_right)
    simp only [createSession, uuidV4, String.toList, uuidStringify, byteToHex,
      List.cons_append, List.nil_append, List.getD_cons_succ, List.getD_cons_zero]
    rw [h6]
    exact versionNibble ((r 6).val &&& 15) hlt

/-- C7: a token created at `t0` with TTL `ttlSeconds` (expiry interval of
`ttlSeconds * 1000` milliseconds, as stored by `createSession`) validates
successfully at any `now` in `[t0, t0 + ttl)` with the store untouched,
and from `t0 + ttl` on `validateSession` returns `null` and that same call
removes the entry from the store (lazy eviction). -/
theorem validateSession_spec (ttlSeconds : Int) (caps : List String) (site : String)
    (r : Fin 16 → Fin 256) (t0 now : Int) (store : List (String × SessionData))
    (hnodup : (store.map Prod.fst).Nodup) :
    (t0 ≤ now ∧ now < t0 + ttlSeconds * 1000 →
      validateSession now (createSession ttlSeconds caps site r t0 store).1.sessionToken
          (createSession ttlSeconds caps site r t0 store).2 =
        (some { sessionToken := uuidV4 r, siteId := site, capabilities := caps,
                cartItems := [], expiresAt := t0 + ttlSeconds * 1000, createdAt := t0 },
          (createSession ttlSeconds caps site r t0 store).2)) ∧
    (now ≥ t0 + ttlSeconds * 1000 →
      (validateSession now (createSession ttlSeconds caps site r t0 store).1.sessionToken
          (createSession ttlSeconds caps site r t0 store).2).1 = none ∧
      mapGet (createSession ttlSeconds caps site r t0 store).1.sessionToken
        (validateSession now (createSession ttlSeconds caps site r t0 store).1.sessionToken
          (createSession ttlSeconds caps site r t0 store).2).2 = none) := by
  have hget : mapGet (uuidV4 r)
      (createSession ttlSeconds caps site r t0 store).2 =
      some { sessionToken := uuidV4 r, siteId := site, capabilities := caps,
             cartItems := [], expiresAt := t0 + ttlSeconds * 1000, createdAt := t0 } := by
    simpa [createSession] using
      mapGet_mapSet_self (uuidV4 r)
        { sessionToken := uuidV4 r, siteId := site, capabilities := caps,
          cartItems := [], expiresAt := t0 + ttlSeconds * 1000, createdAt := t0 } store
  constructor
  · rintro ⟨-, hlt⟩
    simp only [createSession] at hget ⊢
    simp [validateSession, hget, not_le.mpr hlt]
  · intro hge
    simp only [createSession] at hget ⊢
    have hexp : (t0 + ttlSeconds * 1000 : Int) ≤ now := hge
    constructor
    · simp [validateSession, hget, hexp]
    · simp only [validateSession, hget, if_pos hexp]
      exact mapGet_mapDelete_self (uuidV4 r) _
        (nodup_keys_mapSet (uuidV4 r) _ store hnodup)

/-- Witness for C7 at `ttl = 3600 s`, creation time 0, fresh store:
validation succeeds at `now = 5` and fails (with eviction) at
`now = 3 600 000`. -/
theorem validateSession_spec_witness :
    validateSession 5 (createSession 3600 [] "s" (fun _ => 0) 0 []).1.sessionToken
        (createSession 3600 [] "s" (fun _ => 0) 0 []).2 =
      (some { sessionToken := uuidV4 (fun _ => 0), siteId := "s", capabilities := [],
              cartItems := [], expiresAt := 3600000, createdAt := 0 },
        (createSession 3600 [] "s" (fun _ => 0) 0 []).2) ∧
    (validateSession 3600000 (createSession 3600 [] "s" (fun _ => 0) 0 []).1.sessionToken
        (createSession 3600 [] "s" (fun _ => 0) 0 []).2).1 = none := by
  constructor
  · have h := (validateSession_spec 3600 [] "s" (fun _ => 0) 0 5 [] (by simp)).1
      ⟨by norm_num, by norm_num⟩
    simpa using h
  · exact ((validateSession_spec 3600 [] "s" (fun _ => 0) 0 3600000 [] (by simp)).2
      (by norm_num)).1

/-! ## Claim theorems: DELETE session route -/

/-- C10 counterexample: the route checks the per-IP rate limiter before
looking at the token, so a token-less request from an IP whose window is
exhausted (60 timestamps inside the window at limit 60) receives 429, not
the 401 the claim promises for every token-less request. -/
theorem deleteSession_rate_precedes_token :
    (deleteSessionRoute 60 0 (List.replicate 60 0) []
        { authorization := none, xSessionToken := none }).1.status = 429 ∧
    (deleteSessionRoute 60 0 (List.replicate 60 0) []
        { authorization := none, xSessionToken := none }).1.status ≠ 401 := by
  constructor
  · rfl
  · decide

/-- C10 amended: provided the per-IP rate check passes (otherwise the
route answers 429 first), a request with no session token in either
header gets 401 `Missing session token` with the session store unchanged,
and a request with any non-empty token — known or unknown — gets 200
`{ended: true}`. -/
theorem deleteSessionRoute_spec (rateLimit : Nat) (now : Int) (rl : List Int)
    (sessions : List (String × SessionData)) (req : AgentReq)
    (hallowed : (checkRateLimit now rateLimit rl).1.allowed = true) :
    (jsFalsyStr (extractToken req) = true →
      (deleteSessionRoute rateLimit now rl sessions req).1 =
        { status := 401, ok := false, error := some "Missing session token", ended := false } ∧
      (deleteSessionRoute rateLimit now rl sessions req).2.1 = sessions) ∧
    (jsFalsyStr (extractToken req) = false →
      (deleteSessionRoute rateLimit now rl sessions req).1 =
        { status := 200, ok := true, error := none, ended := true }) := by
  constructor
  · intro hf
    simp [deleteSessionRoute, hallowed, hf]
  · intro hf
    simp [deleteSessionRoute, hallowed, hf]

/-- Witness for C10 amended: fresh window at limit 60; a header-less
request gets 401, a `Authorization: Bearer abc` request gets 200. -/
theorem deleteSessionRoute_spec_witness :
    (deleteSessionRoute 60 0 [] [] { authorization := none, xSessionToken := none }).1 =
      { status := 401, ok := false, error := some "Missing session token", ended := false } ∧
    (deleteSessionRoute 60 0 [] [] { authorization := some "Bearer abc", xSessionToken := none }).1 =
      { status := 200, ok := true, error := none, ended := true } := by
  constructor
  · exact ((deleteSessionRoute_spec 60 0 [] []
      { authorization := none, xSessionToken := none } (by decide)).1 (by decide)).1
  · exact (deleteSessionRoute_spec 60 0 [] []
      { authorization := some "Bearer abc", xSessionToken := none } (by decide)).2 (by decide)

/-! ## Claim theorems: rate limiter burst -/

/-- Rejecting step of `checkRateLimit`: when nothing is trimmed and the
window already holds `lim` or more timestamps, the call is rejected with
`resetAt` read from the oldest kept timestamp and the state unchanged. -/
theorem checkRateLimit_full (now : Int) (lim : Nat) (s : List Int)
    (hkeep : ∀ x ∈ s, now - windowMs < x) (hfull : lim ≤ s.length) :
    checkRateLimit now lim s =
      ({ allowed := false, remaining := 0, resetAt := s.headD 0 + windowMs }, s) := by
  have h : s.filter (fun x => decide (now - windowMs < x)) = s :=
    List.filter_eq_self.mpr (by intro a ha; simpa using hkeep a ha)
  simp [checkRateLimit, h, hfull]

/-- Admitting step of `checkRateLimit`: when nothing is trimmed and the
window holds fewer than `lim` timestamps, the call is allowed and `now`
is appended. -/
theorem checkRateLimit_notfull (now : Int) (lim : Nat) (s : List Int)
    (hkeep : ∀ x ∈ s, now - windowMs < x) (hnotfull : s.length < lim) :
    checkRateLimit now lim s =
      ({ allowed := true, remaining := lim - (s.length + 1), resetAt := now + windowMs },
        s ++ [now]) := by
  have h : s.filter (fun x => decide (now - windowMs < x)) = s :=
    List.filter_eq_self.mpr (by intro a ha; simpa using hkeep a ha)
  simp [checkRateLimit, h, Nat.not_le.mpr hnotfull]

/-- Each call produces exactly one result. -/
theorem runBurst_length (lim : Nat) (times ts : List Int) :
    (runBurst lim times ts).1.length = times.length := by
  induction times generalizing ts with
  | nil => rfl
  | cons t rest ih => simp [runBurst, ih]

/-- Invariant lemma for a burst of `checkRateLimit` calls whose times all
lie in `[t1, t1 + windowMs)`: no trimming occurs, the number of allowed
results is `min (lim − s.length) times.length`, and every rejected result
reports `resetAt = t1 + windowMs` (the earliest in-window timestamp plus
the window width). -/
theorem runBurst_spec (lim : Nat) (hlim : 1 ≤ lim) (t1 : Int) :
    ∀ (times s : List Int),
      (∀ t ∈ times, t1 ≤ t ∧ t < t1 + windowMs) →
      (∀ t ∈ s, t1 ≤ t ∧ t < t1 + windowMs) →
      s.length ≤ lim →
      (s ++ times).headD t1 = t1 →
      (runBurst lim times s).1.countP (fun r => r.allowed) =
        min (lim - s.length) times.length ∧
      ∀ r ∈ (runBurst lim times s).1, r.allowed = false → r.resetAt = t1 + windowMs := by
  intro times
  induction times with
  | nil =>
    intro s _ _ _ _
    exact ⟨by simp [runBurst], by simp [runBurst]⟩
  | cons t rest ih =>
    intro s htimes hs hlen hhead
    have htbound := htimes t (List.mem_cons_self t rest)
    have hrest : ∀ x ∈ rest, t1 ≤ x ∧ x < t1 + windowMs :=
      fun x hx => htimes x (List.mem_cons_of_mem t hx)
    have hkeepcond : ∀ x ∈ s, t - windowMs < x := by
      intro x hx
      have h1 := (hs x hx).1
      have h2 := htbound.2
      omega
    by_cases hfull : lim ≤ s.length
    · -- rejected call, state unchanged
      have hslen : s.length = lim := le_antisymm hlen hfull
      have hs_ne : s ≠ [] := by
        intro h
        rw [h] at hslen
        simp only [List.length_nil] at hslen
        omega
      obtain ⟨a, s', rfl⟩ := List.exists_cons_of_ne_nil hs_ne
      have ha : a = t1 := by simpa using hhead
      have heq := checkRateLimit_full t lim (a :: s') hkeepcond hfull
      have hrb : runBurst lim (t :: rest) (a :: s') =
          (({ allowed := false, remaining := 0, resetAt := a + windowMs } : RateResult) ::
              (runBurst lim rest (a :: s')).1,
            (runBurst lim rest (a :: s')).2) := by
        simp [runBurst, heq]
      have hhead2 : ((a :: s') ++ rest).headD t1 = t1 := by simpa using ha
      obtain ⟨ihc, ihr⟩ := ih (a :: s') hrest hs hlen hhead2
      constructor
      · rw [hrb, List.countP_cons, ihc]
        norm_num
        simp only [List.length_cons] at hslen ⊢
        omega
      · rw [hrb]
        intro r hr hral
        rcases List.mem_cons.mp hr with h | h
        · rw [h]
          simp [ha]
        · exact ihr r h hral
    · -- allowed call, `t` appended
      have hnl : s.length < lim := lt_of_not_ge hfull
      have heq := checkRateLimit_notfull t lim s hkeepcond hnl
      have hrb : runBurst lim (t :: rest) s =
          (({ allowed := true, remaining := lim - (s.length + 1), resetAt := t + windowMs } :
              RateResult) :: (runBurst lim rest (s ++ [t])).1,
            (runBurst lim rest (s ++ [t])).2) := by
        simp [runBurst, heq]
      have hs2 : ∀ x ∈ s ++ [t], t1 ≤ x ∧ x < t1 + windowMs := by
        intro x hx
        rcases List.mem_append.mp hx with h | h
        · exact hs x h
        · have : x = t := by simpa using h
          rw [this]
          exact htbound
      have hlen2 : (s ++ [t]).length ≤ lim := by
        simp only [List.length_append, List.length_singleton]
        omega
      have hhead2 : ((s ++ [t]) ++ rest).headD t1 = t1 := by
        rw [List.append_assoc]
        simpa using hhead
      obtain ⟨ihc, ihr⟩ := ih (s ++ [t]) hrest hs2 hlen2 hhead2
      constructor
      · rw [hrb, List.countP_cons, ihc]
        norm_num
        simp only [List.length_append, List.length_singleton, List.length_cons] at *
        omega
      · rw [hrb]
        intro r hr hral
        rcases List.mem_cons.mp hr with h | h
        · rw [h] at hral
          simp at hral
        · exact ihr r h hral

/-- C6: for every limit `L ≥ 1`, a burst of `n > L` calls to
`checkRateLimit` for one key, all within one 60 000 ms window and starting
from an empty window, yields exactly `L` results with `allowed = true`
out of `n`, and every rejected call reports `resetAt` equal to the
earliest in-window timestamp (`t1`, the first call) plus 60 000 ms. -/
theorem checkRateLimit_burst (lim : Nat) (t1 : Int) (rest : List Int)
    (hlim : 1 ≤ lim) (hn : lim < (t1 :: rest).length)
    (hbounds : ∀ t ∈ t1 :: rest, t1 ≤ t ∧ t < t1 + windowMs) :
    (runBurst lim (t1 :: rest) []).1.length = (t1 :: rest).length ∧
    (runBurst lim (t1 :: rest) []).1.countP (fun r => r.allowed) = lim ∧
    ∀ r ∈ (runBurst lim (t1 :: rest) []).1, r.allowed = false →
      r.resetAt = t1 + windowMs := by
  obtain ⟨hc, hr⟩ := runBurst_spec lim hlim t1 (t1 :: rest) [] hbounds
    (by intro x hx; simp at hx) (by simp) (by simp)
  refine ⟨runBurst_length lim (t1 :: rest) [], ?_, hr⟩
  rw [hc]
  simp only [List.length_nil, Nat.sub_zero]
  omega

/-- Witness for C6: limit 2, burst of three calls at times 0, 1, 2 from an
empty window — three results, exactly two allowed, every rejection reset
at `0 + windowMs`. -/
theorem checkRateLimit_burst_witness :
    (runBurst 2 [0, 1, 2] []).1.length = 3 ∧
    (runBurst 2 [0, 1, 2] []).1.countP (fun r => r.allowed) = 2 ∧
    ∀ r ∈ (runBurst 2 [0, 1, 2] []).1, r.allowed = false →
      r.resetAt = 0 + windowMs :=
  checkRateLimit_burst 2 0 [1, 2] (by decide) (by decide) (by decide)

/-! ## Gateway registration admission (`dist/server.js` `createApp`)

JSON body fields are modelled as tagged values: JavaScript numbers are
modelled as `Int` (the claims settled here do not involve fractional
values), and `jother` covers every other JSON shape (`null`, booleans,
objects, arrays).  `jabsent` is a missing property (`undefined`). -/

inductive JsValue where
  | jstr (s : String)
  | jnum (n : Int)
  | jabsent
  | jother
deriving Repr, DecidableEq

/-- The `POST /register` request body fields read by the handler. -/
structure RegisterBody where
  slug : JsValue
  siteName : JsValue
  siteUrl : JsValue
  apiUrl : JsValue
  openApiUrl : JsValue
  rateLimit : JsValue
deriving Repr, DecidableEq

def isStr : JsValue → Bool
  | .jstr _ => true
  | _ => false

def strOf : JsValue → String
  | .jstr s => s
  | _ => ""

/-- Character class `[a-z0-9-]`. -/
def isSlugChar (c : Char) : Bool :=
  (decide ('a' ≤ c) && decide (c ≤ 'z')) || (decide ('0' ≤ c) && decide (c ≤ '9')) || (c == '-')

/-- Character class `[a-z0-9]`. -/
def isSlugAlnum (c : Char) : Bool :=
  (decide ('a' ≤ c) && decide (c ≤ 'z')) || (decide ('0' ≤ c) && decide (c ≤ '9'))

/-- The slug test `/^[a-z0-9-]{2,40}$/` used by `dist/server.js`
(`createApp`) and `src/server.ts`: 2 to 40 characters from `[a-z0-9-]`,
with no constraint on hyphen position. -/
def slugRegexLax (s : String) : Bool :=
  decide (2 ≤ s.toList.length) && decide (s.toList.length ≤ 40) && s.toList.all isSlugChar

/-- The slug test `/^[a-z0-9][a-z0-9-]{0,38}[a-z0-9]$/` used by the
reviewed revision (`part_006`/`part_009`) and stated by the spec: first
and last characters alphanumeric, middle from `[a-z0-9-]`, length 2-40. -/
def slugRegexStrict (s : String) : Bool :=
  decide (2 ≤ s.toList.length) && decide (s.toList.length ≤ 40) &&
  (match s.toList.head? with | some c => isSlugAlnum c | none => false) &&
  (match s.toList.getLast? with | some c => isSlugAlnum c | none => false) &&
  ((s.toList.drop 1).dropLast.all isSlugChar)

/-- The reserved slug set of the reviewed revision
(`part_006`/`part_007`/`part_009`, REVIEW.md item 3). -/
def RESERVED_SLUGS : List String :=
  ["register", "sites", "health", "admin", "api",
   "static", "assets", "favicon.ico", "robots.txt", ".well-known"]

/-- `rateLimit` validation of `createApp`: absent is fine; otherwise it
must be a finite number in `[1, 1000]`. -/
def rateLimitOk : JsValue → Bool
  | .jabsent => true
  | .jnum n => decide (1 ≤ n) && decide (n ≤ 1000)
  | _ => false

def REGISTER_LIMIT : Nat := 10

def REGISTER_WINDOW_MS : Int := 60000

/-- `checkRegisterRate(ip)` of `dist/server.js` for one IP: trim the
window to entries newer than `now − 60 s`; refuse at 10 without
consuming; otherwise append `now`. -/
def checkRegisterRate (now : Int) (window : List Int) : Bool × List Int :=
  let cutoff := now - REGISTER_WINDOW_MS
  let recent := window.filter (fun t => cutoff < t)
  if REGISTER_LIMIT ≤ recent.length then (false, recent)
  else (true, recent ++ [now])

/-- JS `str.replace(/\x2f$/, '')`: strip one trailing slash. -/
def stripTrailingSlash (s : String) : String :=
  match s.toList.getLast? with
  | some c => if c = '/' then ⟨s.toList.dropLast⟩ else s
  | none => s

/-- Terminal validation outcomes of the `POST /register` handler of
`dist/server.js` (`createApp`), in source order; `proceedToFetch` means
every validation passed and the handler goes on to fetch the spec from
`specUrl` (registering the tenant if the fetch and compilation succeed). -/
inductive RegisterOutcome where
  | rateLimited
  | missingFields
  | missingApiUrl
  | badSlug
  | badRateLimit
  | quotaFull
  | duplicateSlug
  | urlNotAllowed (u : String)
  | specUrlNotAllowed (u : String)
  | proceedToFetch (resolvedApiUrl specUrl : String)
deriving Repr, DecidableEq

/-- HTTP status of each terminal validation outcome (`proceedToFetch` has
no status yet). -/
def statusOfOutcome : RegisterOutcome → Option Nat
  | .rateLimited => some 429
  | .missingFields => some 400
  | .missingApiUrl => some 400
  | .badSlug => some 400
  | .badRateLimit => some 400
  | .quotaFull => some 503
  | .duplicateSlug => some 409
  | .urlNotAllowed _ => some 400
  | .specUrlNotAllowed _ => some 400
  | .proceedToFetch _ _ => none

/-- The body-validation chain of `createApp`'s `POST /register`, run
after the rate gate, in source order: required fields, apiUrl/openApiUrl
presence, slug regex (the lax one — `createApp` has **no** reserved-name
check), rateLimit range, registration quota (500), duplicate slug, URL
guard over `[siteUrl, apiUrl?, openApiUrl?]` (first failure reported),
then the derived `specUrl` guard.  `urlOk` stands for
`resolveAndValidateUrl` (DNS resolution is an external effect). -/
def registerDecision (urlOk : String → Bool) (doorCount : Nat) (doorSlugs : List String)
    (body : RegisterBody) : RegisterOutcome :=
  if ¬ (isStr body.slug && isStr body.siteName && isStr body.siteUrl) then .missingFields
  else if ¬ (isStr body.apiUrl || isStr body.openApiUrl) then .missingApiUrl
  else if ¬ slugRegexLax (strOf body.slug) then .badSlug
  else if ¬ rateLimitOk body.rateLimit then .badRateLimit
  else if 500 ≤ doorCount then .quotaFull
  else if doorSlugs.contains (strOf body.slug) then .duplicateSlug
  else
    let urls := [strOf body.siteUrl] ++ (if isStr body.apiUrl then [strOf body.apiUrl] else [])
      ++ (if isStr body.openApiUrl then [strOf body.openApiUrl] else [])
    match urls.find? (fun u => ! urlOk u) with
    | some u => .urlNotAllowed u
    | none =>
      let resolvedApiUrl :=
        stripTrailingSlash (if isStr body.apiUrl then strOf body.apiUrl else strOf body.siteUrl)
      let specUrl :=
        if isStr body.openApiUrl then strOf body.openApiUrl
        else resolvedApiUrl ++ "/openapi.json"
      if ¬ urlOk specUrl then .specUrlNotAllowed specUrl
      else .proceedToFetch resolvedApiUrl specUrl

/-- The full `POST /register` validation of `createApp`: the per-IP
registration-rate gate runs **first** (line 227, before any body
validation), then the body-validation chain; the window state after the
call is `checkRegisterRate`'s output either way. -/
def registerValidate (urlOk : String → Bool) (doorCount : Nat) (doorSlugs : List String)
    (now : Int) (window : List Int) (body : RegisterBody) : RegisterOutcome × List Int :=
  let rate := checkRegisterRate now window
  if rate.1 = false then (.rateLimited, rate.2)
  else (registerDecision urlOk doorCount doorSlugs body, rate.2)

/-- C4: the claim says a reserved slug (e.g. `api`) is refused with 400
and no tenant is created.  The `createApp` handler of `dist/server.js`
(and `src/server.ts`) has no reserved-name check at all: with an
otherwise valid payload the reserved slug `api` passes every validation
and the handler proceeds to the spec fetch (after which the tenant is
registered), never emitting the claimed 400.  The reviewed revision
(`part_009`, REVIEW.md item 3) and the repo's tests (`part_005`) require
the rejection, so the cited code contradicts them. -/
theorem reservedSlug_not_refused :
    "api" ∈ RESERVED_SLUGS ∧
    slugRegexLax "api" = true ∧
    (registerValidate (fun _ => true) 0 [] 0 []
      { slug := .jstr "api", siteName := .jstr "T", siteUrl := .jstr "https://example.com",
        apiUrl := .jstr "https://api.example.com", openApiUrl := .jabsent,
        rateLimit := .jabsent }).1 =
      .proceedToFetch "https://api.example.com" "https://api.example.com/openapi.json" ∧
    statusOfOutcome (registerValidate (fun _ => true) 0 [] 0 []
      { slug := .jstr "api", siteName := .jstr "T", siteUrl := .jstr "https://example.com",
        apiUrl := .jstr "https://api.example.com", openApiUrl := .jabsent,
        rateLimit := .jabsent }).1 = none := by
  refine ⟨by decide, by decide, by decide, by decide⟩

/-- C5: the claim says slugs are accepted exactly by
`^[a-z0-9][a-z0-9-]{0,38}[a-z0-9]$`, in particular `-ab` and `ab-` get
400.  The regex actually used by `createApp` / `src/server.ts` is
`^[a-z0-9-]{2,40}$`, which accepts `-ab` and `ab-` (the handler then
continues to later checks, never emitting the slug 400); the strict
regex of the reviewed revision (`part_006`/`part_009`, asserted by the
`part_005` test for `-nope-`) rejects them.  Length 1 is rejected by
both. -/
theorem slugRegex_accepts_hyphen_edges :
    slugRegexLax "-ab" = true ∧ slugRegexLax "ab-" = true ∧ slugRegexLax "a" = false ∧
    slugRegexStrict "-ab" = false ∧ slugRegexStrict "ab-" = false ∧
    (registerValidate (fun _ => true) 0 [] 0 []
      { slug := .jstr "-ab", siteName := .jstr "T", siteUrl := .jstr "https://example.com",
        apiUrl := .jstr "https://api.example.com", openApiUrl := .jabsent,
        rateLimit := .jabsent }).1 ≠ .badSlug := by
  refine ⟨by decide, by decide, by decide, by decide, by decide, by decide⟩

/-- C8 counterexample: with 10 in-window timestamps for the caller IP, a
request whose body is invalid (missing `slug`) is answered 429 by the
rate gate — not the 400 the claim's ordering promises — and with a fresh
window, a request failing the required-field check still consumes the
registration-rate window (the window afterwards contains the call time). -/
theorem registerRate_first_counterexample :
    (registerValidate (fun _ => true) 0 [] 0 (List.replicate 10 0)
      { slug := .jabsent, siteName := .jstr "T", siteUrl := .jstr "https://x.example",
        apiUrl := .jstr "https://x.example", openApiUrl := .jabsent,
        rateLimit := .jabsent }).1 = .rateLimited ∧
    statusOfOutcome (registerValidate (fun _ => true) 0 [] 0 (List.replicate 10 0)
      { slug := .jabsent, siteName := .jstr "T", siteUrl := .jstr "https://x.example",
        apiUrl := .jstr "https://x.example", openApiUrl := .jabsent,
        rateLimit := .jabsent }).1 = some 429 ∧
    (registerValidate (fun _ => true) 0 [] 5 []
      { slug := .jabsent, siteName := .jstr "T", siteUrl := .jstr "https://x.example",
        apiUrl := .jstr "https://x.example", openApiUrl := .jabsent,
        rateLimit := .jabsent }).1 = .missingFields ∧
    (registerValidate (fun _ => true) 0 [] 5 []
      { slug := .jabsent, siteName := .jstr "T", siteUrl := .jstr "https://x.example",
        apiUrl := .jstr "https://x.example", openApiUrl := .jabsent,
        rateLimit := .jabsent }).2 = [5] := by
  refine ⟨by decide, by decide, by decide, by decide⟩

/-- C8 amended: in `createApp`'s `POST /register` the per-IP
registration-rate window (10 per 60 s) is checked **first**, before any
body validation: an over-rate request is answered 429 regardless of its
body, and every request that passes the rate gate consumes the window
(the call time is appended) even if a later validation step fails. -/
theorem registerRate_checked_first (urlOk : String → Bool) (doorCount : Nat)
    (doorSlugs : List String) (now : Int) (window : List Int) (body : RegisterBody) :
    ((checkRegisterRate now window).1 = false →
      (registerValidate urlOk doorCount doorSlugs now window body).1 = .rateLimited) ∧
    ((checkRegisterRate now window).1 = true →
      (registerValidate urlOk doorCount doorSlugs now window body).2 =
        (window.filter (fun t => now - REGISTER_WINDOW_MS < t)) ++ [now]) := by
  constructor
  · intro h
    simp [registerValidate, h]
  · intro h
    have h2 : (checkRegisterRate now window).2 =
        (window.filter (fun t => now - REGISTER_WINDOW_MS < t)) ++ [now] := by
      by_cases hc : REGISTER_LIMIT ≤
          (window.filter (fun t => decide (now - REGISTER_WINDOW_MS < t))).length
      · exfalso
        simp only [checkRegisterRate, if_pos hc] at h
        exact Bool.false_ne_true h
      · simp only [checkRegisterRate, if_neg hc]
    rw [← h2]
    simp [registerValidate, h]

/-- Witness for C8 amended: a full window of ten timestamps at time 0
rate-limits the call; a fresh window at time 5 is consumed. -/
theorem registerRate_checked_first_witness :
    (registerValidate (fun _ => true) 0 [] 0 (List.replicate 10 0)
      { slug := .jstr "ok-slug", siteName := .jstr "T", siteUrl := .jstr "https://x.example",
        apiUrl := .jstr "https://x.example", openApiUrl := .jabsent,
        rateLimit := .jabsent }).1 = .rateLimited ∧
    (registerValidate (fun _ => true) 0 [] 5 []
      { slug := .jstr "ok-slug", siteName := .jstr "T", siteUrl := .jstr "https://x.example",
        apiUrl := .jstr "https://x.example", openApiUrl := .jabsent,
        rateLimit := .jabsent }).2 = [5] := by
  constructor
  · exact (registerRate_checked_first (fun _ => true) 0 [] 0 (List.replicate 10 0)
      { slug := .jstr "ok-slug", siteName := .jstr "T", siteUrl := .jstr "https://x.example",
        apiUrl := .jstr "https://x.example", openApiUrl := .jabsent,
        rateLimit := .jabsent }).1 (by decide)
  · have h := (registerRate_checked_first (fun _ => true) 0 [] 5 []
      { slug := .jstr "ok-slug", siteName := .jstr "T", siteUrl := .jstr "https://x.example",
        apiUrl := .jstr "https://x.example", openApiUrl := .jabsent,
        rateLimit := .jabsent }).2 (by decide)
    simpa using h

/-! ## Registry (`src/registry.ts`, SQLite-backed)

`SiteRegistration.createdAt` is a JS `Date`, i.e. a millisecond
timestamp.  `Registry.register` stores `createdAt.toISOString()` in the
`created_at TEXT` column and `rowToRegistration` reads it back with
`new Date(created_at)`.  The `Date` library is an external collaborator
of the core (spec §1); the contract the core consumes from it is
`new Date(d.toISOString()).getTime() = d.getTime()` (exact at millisecond
precision), which appears below as the codec pair
`encodeIso`/`decodeIso` with a round-trip hypothesis. -/

/-- Persisted tenant record (`src/types.ts`). -/
structure SiteRegistration where
  slug : String
  siteName : String
  siteUrl : String
  apiUrl : String
  openApiUrl : Option String
  rateLimit : Int
  createdAt : Int
deriving Repr, DecidableEq

/-- Row of the `registrations` table (`src/registry.ts` schema). -/
structure RegRow where
  row_slug : String
  site_name : String
  site_url : String
  api_url : String
  open_api_url : Option String
  rate_limit : Int
  spec_json : String
  created_at : String
deriving Repr, DecidableEq

/-- `Registry.register(reg, specJson)`: `INSERT` of one row;
`openApiUrl ?? null` goes to the nullable column, `createdAt` is stored
as its ISO string.  (On a fresh slug the `INSERT` cannot violate the
primary key.) -/
def registryRegister (encodeIso : Int → String) (reg : SiteRegistration)
    (specJson : String) (db : List RegRow) : List RegRow :=
  db ++ [{ row_slug := reg.slug, site_name := reg.siteName, site_url := reg.siteUrl,
           api_url := reg.apiUrl, open_api_url := reg.openApiUrl,
           rate_limit := reg.rateLimit, spec_json := specJson,
           created_at := encodeIso reg.createdAt }]

/-- `Registry.rowToRegistration`: map a row back to a registration;
`(open_api_url) ?? undefined` turns the SQL `NULL` into an absent field,
`new Date(created_at)` parses the ISO string. -/
def rowToRegistration (decodeIso : String → Int) (row : RegRow) : SiteRegistration :=
  { slug := row.row_slug, siteName := row.site_name, siteUrl := row.site_url,
    apiUrl := row.api_url, openApiUrl := row.open_api_url,
    rateLimit := row.rate_limit, createdAt := decodeIso row.created_at }

/-- `Registry.get(slug)`: `SELECT ... WHERE slug = ?` (primary-key
lookup) mapped through `rowToRegistration`. -/
def registryGet (decodeIso : String → Int) (slug : String) (db : List RegRow) :
    Option SiteRegistration :=
  match db.find? (fun row => row.row_slug == slug) with
  | some row => some (rowToRegistration decodeIso row)
  | none => none

/-- C9: write-then-read round trip of the Registry.  For any date codec
satisfying the `Date` library contract at the written timestamp, after
`register(r, spec)` on a slug fresh in the table, `get(r.slug)` returns a
registration equal to `r` in every field — slug, siteName, siteUrl,
apiUrl, openApiUrl (including the absent case, via the nullable column),
rateLimit, and createdAt to millisecond precision. -/
theorem registry_write_then_read (encodeIso : Int → String) (decodeIso : String → Int)
    (reg : SiteRegistration) (specJson : String) (db : List RegRow)
    (hcodec : decodeIso (encodeIso reg.createdAt) = reg.createdAt)
    (hfresh : ∀ row ∈ db, row.row_slug ≠ reg.slug) :
    registryGet decodeIso reg.slug (registryRegister encodeIso reg specJson db) = some reg := by
  have hnone : db.find? (fun row => row.row_slug == reg.slug) = none := by
    apply List.find?_eq_none.mpr
    intro row hrow
    simpa using hfresh row hrow
  obtain ⟨slug, siteName, siteUrl, apiUrl, openApiUrl, rateLimit, createdAt⟩ := reg
  simp only [registryGet, registryRegister, List.find?_append, hnone, Option.none_or]
  simp only [List.find?_cons, beq_self_eq_true, if_pos rfl]
  simp only [rowToRegistration, Option.some.injEq]
  simp only at hcodec
  simp [hcodec]

/-- Witness for C9: a concrete registration with absent `openApiUrl` and
`createdAt = 0` round-trips through an empty table, with a codec pair
that is exact at the written timestamp. -/
theorem registry_write_then_read_witness :
    registryGet (fun _ => 0) "shop"
      (registryRegister (fun _ => "1970-01-01T00:00:00.000Z")
        { slug := "shop", siteName := "Shop", siteUrl := "https://shop.example",
          apiUrl := "https://api.shop.example", openApiUrl := none,
          rateLimit := 60, createdAt := 0 }
        "{}" []) =
      some { slug := "shop", siteName := "Shop", siteUrl := "https://shop.example",
             apiUrl := "https://api.shop.example", openApiUrl := none,
             rateLimit := 60, createdAt := 0 } :=
  registry_write_then_read (fun _ => "1970-01-01T00:00:00.000Z") (fun _ => 0)
    { slug := "shop", siteName := "Shop", siteUrl := "https://shop.example",
      apiUrl := "https://api.shop.example", openApiUrl := none,
      rateLimit := 60, createdAt := 0 }
    "{}" [] rfl (by simp)

/-! ## URL guard: IPv4-mapped IPv6 handling (`src/url-guard.ts`)

The guard works on hostname strings; they are modelled as `List Char`.
`charToLower` is ASCII lower-casing (all `toLowerCase` does on the
characters of an IP literal), and character classes are phrased over code
points (48-57 are `0`-`9`, 97-102 are `a`-`f`, 65-90 are `A`-`Z`). -/

/-- ASCII lower-casing of one character. -/
def charToLower (c : Char) : Char :=
  if 65 ≤ c.toNat ∧ c.toNat ≤ 90 then Char.ofNat (c.toNat + 32) else c

/-- Decimal digit class. -/
def isDigitChar (c : Char) : Bool :=
  decide (48 ≤ c.toNat) && decide (c.toNat ≤ 57)

/-- Hex digit class accepted by `parseInt(x, 16)`. -/
def isHexDigitChar (c : Char) : Bool :=
  isDigitChar c || (decide (97 ≤ c.toNat) && decide (c.toNat ≤ 102)) ||
    (decide (65 ≤ c.toNat) && decide (c.toNat ≤ 70))

/-- Value of one hex digit. -/
def hexVal (c : Char) : Nat :=
  if isDigitChar c then c.toNat - 48
  else if decide (97 ≤ c.toNat) && decide (c.toNat ≤ 102) then c.toNat - 97 + 10
  else c.toNat - 65 + 10

/-- Greedy hex-prefix accumulation of `parseInt(x, 16)`. -/
def hexPrefixValAcc (acc : Nat) : List Char → Nat
  | [] => acc
  | c :: rest => if isHexDigitChar c then hexPrefixValAcc (acc * 16 + hexVal c) rest else acc

/-- `parseInt(x, 16)`: `none` models `NaN` (no leading hex digit),
otherwise the value of the longest hex-digit prefix. -/
def parseHex (l : List Char) : Option Nat :=
  match l with
  | [] => none
  | c :: _ => if isHexDigitChar c then some (hexPrefixValAcc 0 l) else none

/-- JS `String.prototype.split(sep)` on the character list. -/
def splitOnChar (sep : Char) : List Char → List (List Char)
  | [] => [[]]
  | c :: rest =>
    let r := splitOnChar sep rest
    if c = sep then [] :: r
    else
      match r with
      | [] => [[c]]
      | grp :: groups => (c :: grp) :: groups

/-- Decimal value of a digit string. -/
def decValue (l : List Char) : Nat :=
  l.foldl (fun acc c => acc * 10 + (c.toNat - 48)) 0

/-- One octet of a strict dotted quad (the grammar accepted by Node's
`net.isIPv4`): 1-3 decimal digits, no leading zero except `0` itself,
value at most 255. -/
def octetOk (l : List Char) : Bool :=
  (!l.isEmpty) && l.all isDigitChar && decide (l.length ≤ 3) &&
  (match l with
   | c :: rest => if c = '0' then rest.isEmpty else true
   | [] => true) &&
  decide (decValue l ≤ 255)

/-- Node `net.isIPv4` on the character list: four `.`-separated octets. -/
def isIPv4Chars (l : List Char) : Bool :=
  let parts := splitOnChar '.' l
  decide (parts.length = 4) && parts.all octetOk

/-- `PRIVATE_V4_PREFIXES` of `src/url-guard.ts`: `10. 127. 0. 169.254.
192.168.` plus `172.16.` through `172.31.`. -/
def PRIVATE_V4_PREFIXES : List (List Char) :=
  (["10.", "127.", "0.", "169.254.", "192.168."].map String.toList) ++
  ((List.range 16).map (fun i => ("172." ++ toString (16 + i) ++ ".").toList))

/-- `isPrivateV4(ip)`: some private prefix matches the start of the
string. -/
def isPrivateV4 (ip : List Char) : Bool :=
  PRIVATE_V4_PREFIXES.any (fun p => p.isPrefixOf ip)

/-- JS `Number.prototype.toString()` for values below 1000 — the byte
components of the reconstructed dotted quad all lie below 256. -/
def byteDecChars (n : Nat) : List Char :=
  if n < 10 then [Nat.digitChar n]
  else if n < 100 then [Nat.digitChar (n / 10), Nat.digitChar (n % 10)]
  else [Nat.digitChar (n / 100), Nat.digitChar (n / 10 % 10), Nat.digitChar (n % 10)]

/-- The dotted-quad template `a.b.c.d` built by `isPrivateV6` for a
converted v4-mapped address. -/
def renderV4 (a b c d : Nat) : List Char :=
  byteDecChars a ++ ['.'] ++ byteDecChars b ++ ['.'] ++ byteDecChars c ++ ['.'] ++ byteDecChars d

/-- Canonical lowercase hex rendering of a 16-bit group (no leading
zeros), the form URL parsers emit for IPv6 groups. -/
def hex16Chars (n : Nat) : List Char :=
  if n < 16 then [Nat.digitChar n]
  else if n < 256 then [Nat.digitChar (n / 16), Nat.digitChar (n % 16)]
  else if n < 4096 then [Nat.digitChar (n / 256), Nat.digitChar (n / 16 % 16), Nat.digitChar (n % 16)]
  else [Nat.digitChar (n / 4096), Nat.digitChar (n / 256 % 16), Nat.digitChar (n / 16 % 16),
    Nat.digitChar (n % 16)]

/-- `isPrivateV6(ip)` of `src/url-guard.ts`: lower-case the literal;
`::1` and `::` are private; `fc`/`fd`/`fe80` prefixes are private; after
a `::ffff:` prefix, a dotted IPv4 literal is checked with `isPrivateV4`
directly, and a two-group hex form is converted to a dotted quad with
shifts and masks and re-checked; everything else is public. -/
def isPrivateV6 (ip : List Char) : Bool :=
  let l := ip.map charToLower
  if l = "::1".toList ∨ l = "::".toList then true
  else if "fc".toList.isPrefixOf l || "fd".toList.isPrefixOf l
      || "fe80".toList.isPrefixOf l then true
  else if "::ffff:".toList.isPrefixOf l then
    let mapped := l.drop 7
    if isIPv4Chars mapped then isPrivateV4 mapped
    else
      match splitOnChar ':' mapped with
      | [p1, p2] =>
        match parseHex p1, parseHex p2 with
        | some hi, some lo =>
          isPrivateV4 (renderV4 ((hi >>> 8) &&& 255) (hi &&& 255) ((lo >>> 8) &&& 255) (lo &&& 255))
        | _, _ => false
      | _ => false
  else false

theorem lower_digitChar : ∀ k < 16, charToLower (Nat.digitChar k) = Nat.digitChar k := by decide

theorem digitChar_ne_dot : ∀ k < 16, Nat.digitChar k ≠ '.' := by decide

theorem digitChar_ne_colon : ∀ k < 16, Nat.digitChar k ≠ ':' := by decide

theorem hexDigit_digitChar : ∀ k < 16, isHexDigitChar (Nat.digitChar k) = true := by decide

theorem hexVal_digitChar : ∀ k < 16, hexVal (Nat.digitChar k) = k := by decide

set_option maxRecDepth 4000 in
theorem octetOk_byteDec : ∀ m < 256, octetOk (byteDecChars m) = true := by decide

theorem map_lower_fix {l : List Char} (h : ∀ c ∈ l, charToLower c = c) :
    l.map charToLower = l := by
  induction l with
  | nil => rfl
  | cons a t ih =>
    have ha := h a (by simp)
    have ht := ih (fun c hc => h c (by simp [hc]))
    simp [ha, ht]

theorem mem_byteDec {n : Nat} (hn : n < 256) {c : Char} (hc : c ∈ byteDecChars n) :
    ∃ k, k < 16 ∧ c = Nat.digitChar k := by
  unfold byteDecChars at hc
  split_ifs at hc with h1 h2
  · simp only [List.mem_singleton] at hc
    exact ⟨n, by omega, hc⟩
  · simp only [List.mem_cons, List.mem_singleton, List.not_mem_nil, or_false] at hc
    rcases hc with h | h
    · exact ⟨n / 10, by omega, h⟩
    · exact ⟨n % 10, by omega, h⟩
  · simp only [List.mem_cons, List.mem_singleton, List.not_mem_nil, or_false] at hc
    rcases hc with h | h | h
    · exact ⟨n / 100, by omega, h⟩
    · exact ⟨n / 10 % 10, by omega, h⟩
    · exact ⟨n % 10, by omega, h⟩

theorem mem_hex16 {n : Nat} (hn : n < 65536) {c : Char} (hc : c ∈ hex16Chars n) :
    ∃ k, k < 16 ∧ c = Nat.digitChar k := by
  unfold hex16Chars at hc
  split_ifs at hc with h1 h2 h3
  · simp only [List.mem_singleton] at hc
    exact ⟨n, by omega, hc⟩
  · simp only [List.mem_cons, List.mem_singleton, List.not_mem_nil, or_false] at hc
    rcases hc with h | h
    · exact ⟨n / 16, by omega, h⟩
    · exact ⟨n % 16, by omega, h⟩
  · simp only [List.mem_cons, List.mem_singleton, List.not_mem_nil, or_false] at hc
    rcases hc with h | h | h
    · exact ⟨n / 256, by omega, h⟩
    · exact ⟨n / 16 % 16, by omega, h⟩
    · exact ⟨n % 16, by omega, h⟩
  · simp only [List.mem_cons, List.mem_singleton, List.not_mem_nil, or_false] at hc
    rcases hc with h | h | h | h
    · exact ⟨n / 4096, by omega, h⟩
    · exact ⟨n / 256 % 16, by omega, h⟩
    · exact ⟨n / 16 % 16, by omega, h⟩
    · exact ⟨n % 16, by omega, h⟩

theorem byteDec_no_dot {n : Nat} (hn : n < 256) : ∀ c ∈ byteDecChars n, c ≠ '.' := by
  intro c hc
  obtain ⟨k, hk, rfl⟩ := mem_byteDec hn hc
  exact digitChar_ne_dot k hk

theorem byteDec_lower {n : Nat} (hn : n < 256) :
    (byteDecChars n).map charToLower = byteDecChars n :=
  map_lower_fix (fun c hc => by
    obtain ⟨k, hk, rfl⟩ := mem_byteDec hn hc
    exact lower_digitChar k hk)

theorem renderV4_lower {a b c d : Nat} (ha : a < 256) (hb : b < 256) (hc : c < 256)
    (hd : d < 256) : (renderV4 a b c d).map charToLower = renderV4 a b c d := by
  apply map_lower_fix
  intro ch hch
  simp only [renderV4, List.append_assoc, List.mem_append, List.mem_singleton] at hch
  rcases hch with h | h | h | h | h | h | h
  · obtain ⟨k, hk, rfl⟩ := mem_byteDec ha h
    exact lower_digitChar k hk
  · rw [h]; decide
  · obtain ⟨k, hk, rfl⟩ := mem_byteDec hb h
    exact lower_digitChar k hk
  · rw [h]; decide
  · obtain ⟨k, hk, rfl⟩ := mem_byteDec hc h
    exact lower_digitChar k hk
  · rw [h]; decide
  · obtain ⟨k, hk, rfl⟩ := mem_byteDec hd h
    exact lower_digitChar k hk

theorem splitOnChar_no_sep (sep : Char) (l : List Char) (h : ∀ c ∈ l, c ≠ sep) :
    splitOnChar sep l = [l] := by
  induction l with
  | nil => rfl
  | cons c rest ih =>
    have hc : c ≠ sep := h c (by simp)
    have ih2 := ih (fun x hx => h x (by simp [hx]))
    simp [splitOnChar, hc, ih2]

theorem splitOnChar_append (sep : Char) (xs ys : List Char) (h : ∀ c ∈ xs, c ≠ sep) :
    splitOnChar sep (xs ++ sep :: ys) = xs :: splitOnChar sep ys := by
  induction xs with
  | nil => simp [splitOnChar]
  | cons x xs ih =>
    have hx : x ≠ sep := h x (by simp)
    have ih2 := ih (fun c hc => h c (by simp [hc]))
    simp only [List.cons_append, splitOnChar, if_neg hx, List.append_eq, ih2]

theorem hexAcc_digit (acc k : Nat) (hk : k < 16) (rest : List Char) :
    hexPrefixValAcc acc (Nat.digitChar k :: rest) = hexPrefixValAcc (acc * 16 + k) rest := by
  rw [hexPrefixValAcc]
  rw [if_pos (hexDigit_digitChar k hk), hexVal_digitChar k hk]

theorem parseHex_hex16 : ∀ m < 65536, parseHex (hex16Chars m) = some m := by
  intro m hm
  unfold hex16Chars
  split_ifs with h1 h2 h3
  · simp only [parseHex]
    rw [if_pos (hexDigit_digitChar m (by omega))]
    rw [hexAcc_digit 0 m (by omega)]
    simp [hexPrefixValAcc]
  · simp only [parseHex]
    rw [if_pos (hexDigit_digitChar (m / 16) (by omega))]
    rw [hexAcc_digit 0 (m / 16) (by omega), hexAcc_digit _ (m % 16) (by omega)]
    simp only [hexPrefixValAcc, Option.some.injEq]
    omega
  · simp only [parseHex]
    rw [if_pos (hexDigit_digitChar (m / 256) (by omega))]
    rw [hexAcc_digit 0 (m / 256) (by omega), hexAcc_digit _ (m / 16 % 16) (by omega),
      hexAcc_digit _ (m % 16) (by omega)]
    simp only [hexPrefixValAcc, Option.some.injEq]
    omega
  · simp only [parseHex]
    rw [if_pos (hexDigit_digitChar (m / 4096) (by omega))]
    rw [hexAcc_digit 0 (m / 4096) (by omega), hexAcc_digit _ (m / 256 % 16) (by omega),
      hexAcc_digit _ (m / 16 % 16) (by omega), hexAcc_digit _ (m % 16) (by omega)]
    simp only [hexPrefixValAcc, Option.some.injEq]
    omega

theorem and255_eq_mod (x : Nat) : x &&& 255 = x % 256 := by
  have h := Nat.and_pow_two_sub_one_eq_mod x 8
  norm_num at h
  exact h

theorem shr8_eq_div (x : Nat) : x >>> 8 = x / 256 := by
  have h := Nat.shiftRight_eq_div_pow x 8
  norm_num at h
  exact h

theorem isIPv4_renderV4 {a b c d : Nat} (ha : a < 256) (hb : b < 256) (hc : c < 256)
    (hd : d < 256) : isIPv4Chars (renderV4 a b c d) = true := by
  have hassoc : renderV4 a b c d =
      byteDecChars a ++ '.' :: (byteDecChars b ++ '.' :: (byteDecChars c ++ '.' :: byteDecChars d)) := by
    simp [renderV4, List.append_assoc]
  have hsplit : splitOnChar '.' (renderV4 a b c d) =
      [byteDecChars a, byteDecChars b, byteDecChars c, byteDecChars d] := by
    rw [hassoc, splitOnChar_append _ _ _ (byteDec_no_dot ha),
      splitOnChar_append _ _ _ (byteDec_no_dot hb),
      splitOnChar_append _ _ _ (byteDec_no_dot hc),
      splitOnChar_no_sep _ _ (byteDec_no_dot hd)]
  simp only [isIPv4Chars, hsplit]
  simp [octetOk_byteDec a ha, octetOk_byteDec b hb, octetOk_byteDec c hc, octetOk_byteDec d hd]

theorem isPrivateV6_dotted {a b c d : Nat} (ha : a < 256) (hb : b < 256) (hc : c < 256)
    (hd : d < 256) :
    isPrivateV6 ("::ffff:".toList ++ renderV4 a b c d) = isPrivateV4 (renderV4 a b c d) := by
  have hmap : ("::ffff:".toList ++ renderV4 a b c d).map charToLower =
      "::ffff:".toList ++ renderV4 a b c d := by
    have hlit : ("::ffff:".toList).map charToLower = "::ffff:".toList := by decide
    rw [List.map_append, hlit, renderV4_lower ha hb hc hd]
  have hc1 : ¬("::ffff:".toList ++ renderV4 a b c d = "::1".toList ∨
      "::ffff:".toList ++ renderV4 a b c d = "::".toList) := by
    intro h
    rcases h with h | h
    · have h2 := congrArg (fun l => l.getD 2 ' ') h
      simp at h2
    · have h2 := congrArg List.length h
      simp [renderV4] at h2
  have hc2 : ("fc".toList.isPrefixOf ("::ffff:".toList ++ renderV4 a b c d)
      || "fd".toList.isPrefixOf ("::ffff:".toList ++ renderV4 a b c d)
      || "fe80".toList.isPrefixOf ("::ffff:".toList ++ renderV4 a b c d)) = false := by
    show ("fc".toList.isPrefixOf (':' :: ':' :: 'f' :: 'f' :: 'f' :: 'f' :: ':' :: renderV4 a b c d)
      || _ || _) = false
    simp [List.isPrefixOf]
  have hc3 : ("::ffff:".toList.isPrefixOf ("::ffff:".toList ++ renderV4 a b c d)) = true := by
    have h := List.prefix_append "::ffff:".toList (renderV4 a b c d)
    rwa [← List.isPrefixOf_iff_prefix] at h
  have hdrop : ("::ffff:".toList ++ renderV4 a b c d).drop 7 = renderV4 a b c d := by
    have h7 : ("::ffff:".toList).length = 7 := by decide
    rw [← h7, List.drop_left]
  simp only [isPrivateV6, hmap, hdrop]
  rw [if_neg hc1, if_neg (by simp [hc2]), if_pos (by simp [hc3]),
    if_pos (isIPv4_renderV4 ha hb hc hd)]

theorem hexPair_no_dot {hi lo : Nat} (hhi : hi < 65536) (hlo : lo < 65536) :
    ∀ c ∈ hex16Chars hi ++ ':' :: hex16Chars lo, c ≠ '.' := by
  intro c hcmem
  rcases List.mem_append.mp hcmem with h | h
  · obtain ⟨k, hk, rfl⟩ := mem_hex16 hhi h
    exact digitChar_ne_dot k hk
  · rcases List.mem_cons.mp h with h | h
    · rw [h]; decide
    · obtain ⟨k, hk, rfl⟩ := mem_hex16 hlo h
      exact digitChar_ne_dot k hk

theorem hex16_no_colon {n : Nat} (hn : n < 65536) : ∀ c ∈ hex16Chars n, c ≠ ':' := by
  intro c hcmem
  obtain ⟨k, hk, rfl⟩ := mem_hex16 hn hcmem
  exact digitChar_ne_colon k hk

theorem hex16_lower {n : Nat} (hn : n < 65536) :
    (hex16Chars n).map charToLower = hex16Chars n :=
  map_lower_fix (fun c hcmem => by
    obtain ⟨k, hk, rfl⟩ := mem_hex16 hn hcmem
    exact lower_digitChar k hk)

theorem isPrivateV6_hex {hi lo : Nat} (hhi : hi < 65536) (hlo : lo < 65536) :
    isPrivateV6 ("::ffff:".toList ++ hex16Chars hi ++ ':' :: hex16Chars lo) =
      isPrivateV4 (renderV4 (hi / 256) (hi % 256) (lo / 256) (lo % 256)) := by
  have hassoc : "::ffff:".toList ++ hex16Chars hi ++ ':' :: hex16Chars lo =
      "::ffff:".toList ++ (hex16Chars hi ++ ':' :: hex16Chars lo) := by
    rw [List.append_assoc]
  have hmap : ("::ffff:".toList ++ (hex16Chars hi ++ ':' :: hex16Chars lo)).map charToLower =
      "::ffff:".toList ++ (hex16Chars hi ++ ':' :: hex16Chars lo) := by
    have hlit : ("::ffff:".toList).map charToLower = "::ffff:".toList := by decide
    have htail : (hex16Chars hi ++ ':' :: hex16Chars lo).map charToLower =
        hex16Chars hi ++ ':' :: hex16Chars lo := by
      rw [List.map_append, hex16_lower hhi, List.map_cons, hex16_lower hlo]
      norm_num
      decide
    rw [List.map_append, hlit, htail]
  have hc1 : ¬("::ffff:".toList ++ (hex16Chars hi ++ ':' :: hex16Chars lo) = "::1".toList ∨
      "::ffff:".toList ++ (hex16Chars hi ++ ':' :: hex16Chars lo) = "::".toList) := by
    intro h
    rcases h with h | h
    · have h2 := congrArg (fun l => l.getD 2 ' ') h
      simp at h2
    · have h2 := congrArg (fun l => l.getD 2 ' ') h
      simp at h2
  have hc2 : ("fc".toList.isPrefixOf ("::ffff:".toList ++ (hex16Chars hi ++ ':' :: hex16Chars lo))
      || "fd".toList.isPrefixOf ("::ffff:".toList ++ (hex16Chars hi ++ ':' :: hex16Chars lo))
      || "fe80".toList.isPrefixOf ("::ffff:".toList ++ (hex16Chars hi ++ ':' :: hex16Chars lo)))
      = false := by
    show ("fc".toList.isPrefixOf
        (':' :: ':' :: 'f' :: 'f' :: 'f' :: 'f' :: ':' :: (hex16Chars hi ++ ':' :: hex16Chars lo))
      || _ || _) = false
    simp [List.isPrefixOf]
  have hc3 : ("::ffff:".toList.isPrefixOf
      ("::ffff:".toList ++ (hex16Chars hi ++ ':' :: hex16Chars lo))) = true := by
    have h := List.prefix_append "::ffff:".toList (hex16Chars hi ++ ':' :: hex16Chars lo)
    rwa [← List.isPrefixOf_iff_prefix] at h
  have hdrop : ("::ffff:".toList ++ (hex16Chars hi ++ ':' :: hex16Chars lo)).drop 7 =
      hex16Chars hi ++ ':' :: hex16Chars lo := by
    have h7 : ("::ffff:".toList).length = 7 := by decide
    rw [← h7, List.drop_left]
  have hnot4 : isIPv4Chars (hex16Chars hi ++ ':' :: hex16Chars lo) = false := by
    simp only [isIPv4Chars, splitOnChar_no_sep '.' _ (hexPair_no_dot hhi hlo)]
    simp
  have hsplit : splitOnChar ':' (hex16Chars hi ++ ':' :: hex16Chars lo) =
      [hex16Chars hi, hex16Chars lo] := by
    rw [splitOnChar_append _ _ _ (hex16_no_colon hhi),
      splitOnChar_no_sep _ _ (hex16_no_colon hlo)]
  have e1 : (hi >>> 8) &&& 255 = hi / 256 := by
    rw [shr8_eq_div, and255_eq_mod]
    omega
  have e2 : hi &&& 255 = hi % 256 := and255_eq_mod hi
  have e3 : (lo >>> 8) &&& 255 = lo / 256 := by
    rw [shr8_eq_div, and255_eq_mod]
    omega
  have e4 : lo &&& 255 = lo % 256 := and255_eq_mod lo
  rw [hassoc]
  simp only [isPrivateV6, hmap, hdrop]
  rw [if_neg hc1, if_neg (by simp [hc2]), if_pos (by simp [hc3]), if_neg (by simp [hnot4])]
  simp only [hsplit, parseHex_hex16 hi hhi, parseHex_hex16 lo hlo]
  rw [e1, e2, e3, e4]

/-- C3: for every IPv4-mapped IPv6 literal host, in dotted form
(`::ffff:a.b.c.d`) or 16-bit hex form (`::ffff:XXYY:ZZWW`), the URL
guard's `isPrivateV6` converts the address to IPv4 and classifies it
exactly as `isPrivateV4` classifies the converted dotted quad — so the
URL is rejected whenever the converted IPv4 address lies in a blocked
range; in particular `::ffff:7f00:1` (= 127.0.0.1) is private. -/
theorem ipv4MappedV6_guard (a b c d hi lo : Nat)
    (ha : a < 256) (hb : b < 256) (hc : c < 256) (hd : d < 256)
    (hhi : hi < 65536) (hlo : lo < 65536) :
    isPrivateV6 ("::ffff:".toList ++ renderV4 a b c d) = isPrivateV4 (renderV4 a b c d) ∧
    isPrivateV6 ("::ffff:".toList ++ hex16Chars hi ++ ':' :: hex16Chars lo) =
      isPrivateV4 (renderV4 (hi / 256) (hi % 256) (lo / 256) (lo % 256)) ∧
    isPrivateV6 "::ffff:7f00:1".toList = true :=
  ⟨isPrivateV6_dotted ha hb hc hd, isPrivateV6_hex hhi hlo, by decide⟩

/-- Witness for C3 at 127.0.0.1, i.e. hex groups `7f00` and `1`. -/
theorem ipv4MappedV6_guard_witness :
    isPrivateV6 ("::ffff:".toList ++ renderV4 127 0 0 1) = isPrivateV4 (renderV4 127 0 0 1) ∧
    isPrivateV6 ("::ffff:".toList ++ hex16Chars 32512 ++ ':' :: hex16Chars 1) =
      isPrivateV4 (renderV4 (32512 / 256) (32512 % 256) (1 / 256) (1 % 256)) ∧
    isPrivateV6 "::ffff:7f00:1".toList = true :=
  ipv4MappedV6_guard 127 0 0 1 32512 1 (by decide) (by decide) (by decide) (by decide)
    (by decide) (by decide)
